import Mathlib

/-!
Verification of the executor selection and instantiation engine of the
`intel_cpu` plugin, against
`src/src/plugins/intel_cpu/src/nodes/executors/executor_implementation.hpp`.

The descriptor class `ExecutorImplementation<Attrs>` is translated directly
from the header.  The opaque collaborator types (`executor::Config<Attrs>`
and the `Attrs` template parameter, `MemoryArgs`, `PostOps`,
`ExecutorContext::CPtr`, `Executor`, the enums `ExecutorType` and
`OperationType`) are carriers the descriptor never inspects; they are kept
as type parameters `Config`, `Attrs`, `MemoryArgs`, `PostOps`, `Ctx`,
`Executor`, `ExecutorType`, `OperationType`.  A possibly-empty
`std::function` member becomes an `Option` of a Lean function (an empty
`std::function` is `none`); the nullable `ExecutorPtr` returned by a
factory becomes `Option Executor`; `ov::optional` becomes `Option`.
-/

namespace OpenVinoCpu

/-- Shape tolerance of an executor implementation.  The enum itself is
declared in `executor.hpp`, outside the provided sources;
`executor_implementation.hpp` uses `ShapeTolerance::Agnostic`, and the spec
names the two values ShapeAgnostic and ShapeDependent. -/
inductive ShapeTolerance where
  | Agnostic
  | Dependent
deriving DecidableEq, Repr

/-- The descriptor class `ExecutorImplementation<Attrs>` of
`executor_implementation.hpp`: an immutable record of a name, a backend
type, an operation type, a shape tolerance, and four possibly-empty stored
callables.  All data members are `const` in the source. -/
structure ExecutorImplementation (Config MemoryArgs Attrs PostOps Ctx Executor ExecutorType OperationType : Type) where
  m_name : String
  m_type : ExecutorType
  m_operationType : OperationType
  m_shapeRelation : ShapeTolerance
  m_supports : Option (Config → Bool)
  m_requiresFallback : Option (Config → Option Config)
  m_acceptsShape : Option (MemoryArgs → Bool)
  m_create : Option (Attrs → PostOps → MemoryArgs → Ctx → Option Executor)

variable {Config MemoryArgs Attrs PostOps Ctx Executor ExecutorType OperationType : Type}

/-- The constructor of `ExecutorImplementation`: it initialises each data
member from the corresponding constructor argument. -/
def ExecutorImplementation.make (name : String) (type : ExecutorType)
    (operationType : OperationType) (shapeRelation : ShapeTolerance)
    (supports : Option (Config → Bool))
    (requiresFallback : Option (Config → Option Config))
    (acceptsShape : Option (MemoryArgs → Bool))
    (create : Option (Attrs → PostOps → MemoryArgs → Ctx → Option Executor)) :
    ExecutorImplementation Config MemoryArgs Attrs PostOps Ctx Executor ExecutorType OperationType :=
  ⟨name, type, operationType, shapeRelation, supports, requiresFallback, acceptsShape, create⟩

/-- `bool supports(const Config&) const`: calls `m_supports` when set,
otherwise returns `false`. -/
def ExecutorImplementation.supports
    (impl : ExecutorImplementation Config MemoryArgs Attrs PostOps Ctx Executor ExecutorType OperationType)
    (config : Config) : Bool :=
  match impl.m_supports with
  | some f => f config
  | none => false

/-- `ov::optional<Config> requiresFallback(const Config&) const`: calls
`m_requiresFallback` when set, otherwise returns the empty optional. -/
def ExecutorImplementation.requiresFallback
    (impl : ExecutorImplementation Config MemoryArgs Attrs PostOps Ctx Executor ExecutorType OperationType)
    (config : Config) : Option Config :=
  match impl.m_requiresFallback with
  | some f => f config
  | none => none

/-- `bool acceptsShapes(const MemoryArgs&) const`: calls `m_acceptsShape`
when set, otherwise returns `false`. -/
def ExecutorImplementation.acceptsShapes
    (impl : ExecutorImplementation Config MemoryArgs Attrs PostOps Ctx Executor ExecutorType OperationType)
    (memory : MemoryArgs) : Bool :=
  match impl.m_acceptsShape with
  | some f => f memory
  | none => false

/-- `ExecutorPtr create(...) const`: calls `m_create` when set, otherwise
returns `nullptr` (here `none`). -/
def ExecutorImplementation.create
    (impl : ExecutorImplementation Config MemoryArgs Attrs PostOps Ctx Executor ExecutorType OperationType)
    (attrs : Attrs) (postOps : PostOps) (memory : MemoryArgs) (context : Ctx) :
    Option Executor :=
  match impl.m_create with
  | some f => f attrs postOps memory context
  | none => none

/-- `bool shapeAgnostic() const`: `m_shapeRelation == ShapeTolerance::Agnostic`. -/
def ExecutorImplementation.shapeAgnostic
    (impl : ExecutorImplementation Config MemoryArgs Attrs PostOps Ctx Executor ExecutorType OperationType) :
    Bool :=
  impl.m_shapeRelation = ShapeTolerance.Agnostic

/-- `const char* name() const`. -/
def ExecutorImplementation.name
    (impl : ExecutorImplementation Config MemoryArgs Attrs PostOps Ctx Executor ExecutorType OperationType) :
    String :=
  impl.m_name

/-- `const ExecutorType type() const`. -/
def ExecutorImplementation.type
    (impl : ExecutorImplementation Config MemoryArgs Attrs PostOps Ctx Executor ExecutorType OperationType) :
    ExecutorType :=
  impl.m_type

/-- `const OperationType operationType() const`. -/
def ExecutorImplementation.operationType
    (impl : ExecutorImplementation Config MemoryArgs Attrs PostOps Ctx Executor ExecutorType OperationType) :
    OperationType :=
  impl.m_operationType

/-- One call to a public member function of the descriptor, with its
arguments. -/
inductive DescOp (Config MemoryArgs Attrs PostOps Ctx : Type) where
  | supports (config : Config)
  | requiresFallback (config : Config)
  | acceptsShapes (memory : MemoryArgs)
  | create (attrs : Attrs) (postOps : PostOps) (memory : MemoryArgs) (context : Ctx)
  | shapeAgnostic
  | name
  | type
  | operationType

/-- The value returned by one call to a public member function of the
descriptor. -/
inductive DescResult (Config Executor ExecutorType OperationType : Type) where
  | boolResult (b : Bool)
  | fallbackResult (c : Option Config)
  | executorResult (e : Option Executor)
  | nameResult (s : String)
  | typeResult (t : ExecutorType)
  | operationTypeResult (o : OperationType)

/-- One member-function call as a state transformer: every member function
of `ExecutorImplementation` is `const` and every data member is `const`, so
a call returns its result and leaves the object state as it was. -/
def ExecutorImplementation.runOp
    (impl : ExecutorImplementation Config MemoryArgs Attrs PostOps Ctx Executor ExecutorType OperationType) :
    DescOp Config MemoryArgs Attrs PostOps Ctx →
      ExecutorImplementation Config MemoryArgs Attrs PostOps Ctx Executor ExecutorType OperationType ×
        DescResult Config Executor ExecutorType OperationType
  | .supports config => (impl, .boolResult (impl.supports config))
  | .requiresFallback config => (impl, .fallbackResult (impl.requiresFallback config))
  | .acceptsShapes memory => (impl, .boolResult (impl.acceptsShapes memory))
  | .create attrs postOps memory context => (impl, .executorResult (impl.create attrs postOps memory context))
  | .shapeAgnostic => (impl, .boolResult impl.shapeAgnostic)
  | .name => (impl, .nameResult impl.name)
  | .type => (impl, .typeResult impl.type)
  | .operationType => (impl, .operationTypeResult impl.operationType)

/-- The descriptor state after a sequence of member-function calls. -/
def ExecutorImplementation.runOps
    (impl : ExecutorImplementation Config MemoryArgs Attrs PostOps Ctx Executor ExecutorType OperationType)
    (ops : List (DescOp Config MemoryArgs Attrs PostOps Ctx)) :
    ExecutorImplementation Config MemoryArgs Attrs PostOps Ctx Executor ExecutorType OperationType :=
  ops.foldl (fun i op => (i.runOp op).1) impl

/-- One of the four capability operations of a descriptor. -/
inductive CapOp where
  | supports
  | requiresFallback
  | acceptsShapes
  | create
deriving DecidableEq, Repr

/-- One capability call made by the selection algorithm: which operation,
on the descriptor at which position of the priority-ordered list. -/
structure CallEvent where
  op : CapOp
  idx : Nat
deriving DecidableEq, Repr

/-- Modelled from the spec: whether one candidate descriptor is
structurally successful for the given inputs — it supports the Config, it
is shape-agnostic or accepts the shapes, and its factory yields an
Executor (spec section 4.2, steps a, c, d). -/
def candidateSucceeds
    (impl : ExecutorImplementation Config MemoryArgs Attrs PostOps Ctx Executor ExecutorType OperationType)
    (config : Config) (attrs : Attrs) (postOps : PostOps) (memory : MemoryArgs) (ctx : Ctx) : Bool :=
  impl.supports config &&
    (impl.shapeAgnostic || impl.acceptsShapes memory) &&
    (impl.create attrs postOps memory ctx).isSome

/-- Modelled from the spec: the evaluation of one candidate descriptor by
the Selection Algorithm (spec section 4.2, step 1), instrumented with the
ordered list of capability calls it makes on that descriptor.  Step a: if
`supports` is false the candidate is rejected after the single `supports`
call.  Step b: otherwise `requiresFallback` is queried once and a returned
replacement becomes the effective Config for this candidate.  Step c:
`acceptsShapes` gates the candidate only when it is not shape-agnostic.
Step d: `create` is invoked; `some` executor means success, `none` means
this candidate is rejected. -/
def evalCandidate
    (impl : ExecutorImplementation Config MemoryArgs Attrs PostOps Ctx Executor ExecutorType OperationType)
    (config : Config) (attrs : Attrs) (postOps : PostOps) (memory : MemoryArgs) (ctx : Ctx) :
    Option (Executor × Config) × List CapOp :=
  if impl.supports config then
    if impl.shapeAgnostic then
      match impl.create attrs postOps memory ctx with
      | some e =>
        (some (e, (impl.requiresFallback config).getD config),
          [CapOp.supports, CapOp.requiresFallback, CapOp.create])
      | none =>
        (none, [CapOp.supports, CapOp.requiresFallback, CapOp.create])
    else if impl.acceptsShapes memory then
      match impl.create attrs postOps memory ctx with
      | some e =>
        (some (e, (impl.requiresFallback config).getD config),
          [CapOp.supports, CapOp.requiresFallback, CapOp.acceptsShapes, CapOp.create])
      | none =>
        (none, [CapOp.supports, CapOp.requiresFallback, CapOp.acceptsShapes, CapOp.create])
    else
      (none, [CapOp.supports, CapOp.requiresFallback, CapOp.acceptsShapes])
  else
    (none, [CapOp.supports])

/-- Modelled from the spec: the Selection Algorithm's single pass over the
priority-ordered descriptor list (spec section 4.2), instrumented with the
capability calls it makes, each tagged with the position of the descriptor
it was made on; `k` is the position of the first descriptor of `impls` in
the whole list.  The first structurally-successful candidate wins and stops
the pass; otherwise the pass moves to the next descriptor. -/
def selectTraceAux
    (config : Config) (attrs : Attrs) (postOps : PostOps) (memory : MemoryArgs) (ctx : Ctx) :
    List (ExecutorImplementation Config MemoryArgs Attrs PostOps Ctx Executor ExecutorType OperationType) →
      Nat → Option (Executor × Config) × List CallEvent
  | [], _ => (none, [])
  | impl :: rest, k =>
    match evalCandidate impl config attrs postOps memory ctx with
    | (some res, ops) => (some res, ops.map fun op => ⟨op, k⟩)
    | (none, ops) =>
      ((selectTraceAux config attrs postOps memory ctx rest (k + 1)).1,
        (ops.map fun op => ⟨op, k⟩) ++ (selectTraceAux config attrs postOps memory ctx rest (k + 1)).2)

/-- Modelled from the spec: the instrumented Selection Algorithm over the
whole list, positions starting at 0. -/
def selectTrace
    (impls : List (ExecutorImplementation Config MemoryArgs Attrs PostOps Ctx Executor ExecutorType OperationType))
    (config : Config) (attrs : Attrs) (postOps : PostOps) (memory : MemoryArgs) (ctx : Ctx) :
    Option (Executor × Config) × List CallEvent :=
  selectTraceAux config attrs postOps memory ctx impls 0

/-- Modelled from the spec: the Selection Algorithm's result — the Executor
built by the first structurally-successful descriptor together with the
(possibly fallback-replaced) Config used, or `none` when no descriptor in
the list succeeds ("no applicable implementation"). -/
def select
    (impls : List (ExecutorImplementation Config MemoryArgs Attrs PostOps Ctx Executor ExecutorType OperationType))
    (config : Config) (attrs : Attrs) (postOps : PostOps) (memory : MemoryArgs) (ctx : Ctx) :
    Option (Executor × Config) :=
  (selectTrace impls config attrs postOps memory ctx).1

/-- A descriptor over concrete carrier types that rejects every Config:
its stored `supports` callable returns `false`. -/
def demoReject : ExecutorImplementation Nat Nat Nat Nat Nat Nat Nat Nat :=
  ExecutorImplementation.make "reject" 0 0 ShapeTolerance.Dependent
    (some fun _ => false) none none none

/-- A descriptor over concrete carrier types that supports every Config,
accepts every shape and constructs executor `7`. -/
def demoAccept : ExecutorImplementation Nat Nat Nat Nat Nat Nat Nat Nat :=
  ExecutorImplementation.make "accept" 1 0 ShapeTolerance.Dependent
    (some fun _ => true) none (some fun _ => true) (some fun _ _ _ _ => some 7)

/-! Helper lemmas shared by the claim theorems. -/

/-- A single member-function call leaves the descriptor state unchanged. -/
theorem ExecutorImplementation.runOp_fst
    (impl : ExecutorImplementation Config MemoryArgs Attrs PostOps Ctx Executor ExecutorType OperationType)
    (op : DescOp Config MemoryArgs Attrs PostOps Ctx) :
    (impl.runOp op).1 = impl := by
  cases op <;> rfl

/-- Any sequence of member-function calls leaves the descriptor state
unchanged. -/
theorem ExecutorImplementation.runOps_id
    (impl : ExecutorImplementation Config MemoryArgs Attrs PostOps Ctx Executor ExecutorType OperationType)
    (ops : List (DescOp Config MemoryArgs Attrs PostOps Ctx)) :
    impl.runOps ops = impl := by
  induction ops with
  | nil => rfl
  | cons op rest ih =>
    show ExecutorImplementation.runOps ((impl.runOp op).1) rest = impl
    rw [impl.runOp_fst op]
    exact ih

/-! Claim theorems. -/

/-- Claim C1: a descriptor constructed without a supports callable answers
`false` to `supports` for every Config. -/
theorem supports_default_false
    (name : String) (type : ExecutorType) (operationType : OperationType)
    (shapeRelation : ShapeTolerance)
    (requiresFallback : Option (Config → Option Config))
    (acceptsShape : Option (MemoryArgs → Bool))
    (create : Option (Attrs → PostOps → MemoryArgs → Ctx → Option Executor))
    (config : Config) :
    (@ExecutorImplementation.make Config MemoryArgs Attrs PostOps Ctx Executor ExecutorType
        OperationType name type operationType shapeRelation
        none requiresFallback acceptsShape create).supports config = false :=
  rfl

/-- Claim C2: a descriptor constructed without an acceptsShape callable
answers `false` to `acceptsShapes` for every memory descriptor set. -/
theorem acceptsShapes_default_false
    (name : String) (type : ExecutorType) (operationType : OperationType)
    (shapeRelation : ShapeTolerance)
    (supports : Option (Config → Bool))
    (requiresFallback : Option (Config → Option Config))
    (create : Option (Attrs → PostOps → MemoryArgs → Ctx → Option Executor))
    (memory : MemoryArgs) :
    (@ExecutorImplementation.make Config MemoryArgs Attrs PostOps Ctx Executor ExecutorType
        OperationType name type operationType shapeRelation
        supports requiresFallback none create).acceptsShapes memory = false :=
  rfl

/-- Claim C3: a descriptor constructed without a create callable returns no
executor (`none`, the null `ExecutorPtr`) from `create` for every input,
never a default Executor. -/
theorem create_default_none
    (name : String) (type : ExecutorType) (operationType : OperationType)
    (shapeRelation : ShapeTolerance)
    (supports : Option (Config → Bool))
    (requiresFallback : Option (Config → Option Config))
    (acceptsShape : Option (MemoryArgs → Bool))
    (attrs : Attrs) (postOps : PostOps) (memory : MemoryArgs) (context : Ctx) :
    (@ExecutorImplementation.make Config MemoryArgs Attrs PostOps Ctx Executor ExecutorType
        OperationType name type operationType shapeRelation
        supports requiresFallback acceptsShape none).create attrs postOps memory context = none :=
  rfl

/-- Claim C4: a descriptor constructed without a requiresFallback callable
returns the empty optional from `requiresFallback` for every Config, and
that empty result is distinct from a fallback to any Config `d`, a
default-constructed one included. -/
theorem requiresFallback_default_none
    (name : String) (type : ExecutorType) (operationType : OperationType)
    (shapeRelation : ShapeTolerance)
    (supports : Option (Config → Bool))
    (acceptsShape : Option (MemoryArgs → Bool))
    (create : Option (Attrs → PostOps → MemoryArgs → Ctx → Option Executor))
    (config d : Config) :
    (@ExecutorImplementation.make Config MemoryArgs Attrs PostOps Ctx Executor ExecutorType
        OperationType name type operationType shapeRelation
        supports none acceptsShape create).requiresFallback config = none ∧
      (@ExecutorImplementation.make Config MemoryArgs Attrs PostOps Ctx Executor ExecutorType
        OperationType name type operationType shapeRelation
        supports none acceptsShape create).requiresFallback config ≠ some d :=
  ⟨rfl, fun h => Option.noConfusion h⟩

/-- Claim C4, witnessed at concrete carrier types and a concrete default
Config. -/
theorem requiresFallback_default_none_witness :
    (@ExecutorImplementation.make Nat Nat Nat Nat Nat Nat Nat Nat
        "ref" 0 0 ShapeTolerance.Dependent none none none none).requiresFallback 5 = none ∧
      (@ExecutorImplementation.make Nat Nat Nat Nat Nat Nat Nat Nat
        "ref" 0 0 ShapeTolerance.Dependent none none none none).requiresFallback 5 ≠ some 0 :=
  requiresFallback_default_none "ref" 0 0 ShapeTolerance.Dependent none none none 5 0

/-- Claim C5: no sequence of member-function calls alters any field of a
constructed descriptor — name, backend type, operation type, shape
tolerance and the four stored callables all stay as constructed. -/
theorem descriptor_immutable
    (impl : ExecutorImplementation Config MemoryArgs Attrs PostOps Ctx Executor ExecutorType OperationType)
    (ops : List (DescOp Config MemoryArgs Attrs PostOps Ctx)) :
    impl.runOps ops = impl :=
  impl.runOps_id ops

/-- Claim C6: `shapeAgnostic` answers `true` on a descriptor constructed
with `ShapeTolerance.Agnostic` and `false` on one constructed with
`ShapeTolerance.Dependent`. -/
theorem shapeAgnostic_iff_agnostic
    (name : String) (type : ExecutorType) (operationType : OperationType)
    (supports : Option (Config → Bool))
    (requiresFallback : Option (Config → Option Config))
    (acceptsShape : Option (MemoryArgs → Bool))
    (create : Option (Attrs → PostOps → MemoryArgs → Ctx → Option Executor)) :
    (@ExecutorImplementation.make Config MemoryArgs Attrs PostOps Ctx Executor ExecutorType
        OperationType name type operationType
        ShapeTolerance.Agnostic supports requiresFallback acceptsShape create).shapeAgnostic = true ∧
      (@ExecutorImplementation.make Config MemoryArgs Attrs PostOps Ctx Executor ExecutorType
        OperationType name type operationType
        ShapeTolerance.Dependent supports requiresFallback acceptsShape create).shapeAgnostic = false :=
  ⟨rfl, rfl⟩

/-- Claim C10: after any sequence of member-function calls, `name`, `type`
and `operationType` still return exactly the values passed to the
constructor. -/
theorem accessors_roundtrip
    (name : String) (type : ExecutorType) (operationType : OperationType)
    (shapeRelation : ShapeTolerance)
    (supports : Option (Config → Bool))
    (requiresFallback : Option (Config → Option Config))
    (acceptsShape : Option (MemoryArgs → Bool))
    (create : Option (Attrs → PostOps → MemoryArgs → Ctx → Option Executor))
    (ops : List (DescOp Config MemoryArgs Attrs PostOps Ctx)) :
    ((@ExecutorImplementation.make Config MemoryArgs Attrs PostOps Ctx Executor ExecutorType
        OperationType name type operationType shapeRelation
        supports requiresFallback acceptsShape create).runOps ops).name = name ∧
      ((@ExecutorImplementation.make Config MemoryArgs Attrs PostOps Ctx Executor ExecutorType
        OperationType name type operationType shapeRelation
        supports requiresFallback acceptsShape create).runOps ops).type = type ∧
      ((@ExecutorImplementation.make Config MemoryArgs Attrs PostOps Ctx Executor ExecutorType
        OperationType name type operationType shapeRelation
        supports requiresFallback acceptsShape create).runOps ops).operationType = operationType := by
  rw [ExecutorImplementation.runOps_id]
  exact ⟨rfl, rfl, rfl⟩

/-! Helper lemmas about the instrumented selection pass. -/

/-- The capability-call list of one candidate evaluation is one of four
fixed call sequences. -/
theorem evalCandidate_snd_cases
    (impl : ExecutorImplementation Config MemoryArgs Attrs PostOps Ctx Executor ExecutorType OperationType)
    (config : Config) (attrs : Attrs) (postOps : PostOps) (memory : MemoryArgs) (ctx : Ctx) :
    (evalCandidate impl config attrs postOps memory ctx).2 = [CapOp.supports] ∨
      (evalCandidate impl config attrs postOps memory ctx).2 =
        [CapOp.supports, CapOp.requiresFallback, CapOp.create] ∨
      (evalCandidate impl config attrs postOps memory ctx).2 =
        [CapOp.supports, CapOp.requiresFallback, CapOp.acceptsShapes] ∨
      (evalCandidate impl config attrs postOps memory ctx).2 =
        [CapOp.supports, CapOp.requiresFallback, CapOp.acceptsShapes, CapOp.create] := by
  cases hs : impl.supports config <;> cases ha : impl.shapeAgnostic <;>
    cases hm : impl.acceptsShapes memory <;> cases hc : impl.create attrs postOps memory ctx <;>
    simp [evalCandidate, hs, ha, hm, hc]

/-- One candidate evaluation yields a result exactly when the candidate is
structurally successful. -/
theorem evalCandidate_fst_isSome
    (impl : ExecutorImplementation Config MemoryArgs Attrs PostOps Ctx Executor ExecutorType OperationType)
    (config : Config) (attrs : Attrs) (postOps : PostOps) (memory : MemoryArgs) (ctx : Ctx) :
    (evalCandidate impl config attrs postOps memory ctx).1.isSome =
      candidateSucceeds impl config attrs postOps memory ctx := by
  cases hs : impl.supports config <;> cases ha : impl.shapeAgnostic <;>
    cases hm : impl.acceptsShapes memory <;> cases hc : impl.create attrs postOps memory ctx <;>
    simp [evalCandidate, candidateSucceeds, hs, ha, hm, hc]

/-- One candidate evaluation performs each capability operation at most
once. -/
theorem evalCandidate_snd_nodup
    (impl : ExecutorImplementation Config MemoryArgs Attrs PostOps Ctx Executor ExecutorType OperationType)
    (config : Config) (attrs : Attrs) (postOps : PostOps) (memory : MemoryArgs) (ctx : Ctx) :
    (evalCandidate impl config attrs postOps memory ctx).2.Nodup := by
  rcases evalCandidate_snd_cases impl config attrs postOps memory ctx with h | h | h | h <;>
    rw [h] <;> decide

/-- One candidate evaluation always starts with a `supports` call and makes
exactly one. -/
theorem evalCandidate_snd_supports_count
    (impl : ExecutorImplementation Config MemoryArgs Attrs PostOps Ctx Executor ExecutorType OperationType)
    (config : Config) (attrs : Attrs) (postOps : PostOps) (memory : MemoryArgs) (ctx : Ctx) :
    ((evalCandidate impl config attrs postOps memory ctx).2.countP fun op => op = CapOp.supports) = 1 := by
  rcases evalCandidate_snd_cases impl config attrs postOps memory ctx with h | h | h | h <;>
    rw [h] <;> decide

/-- Unfolding the instrumented pass on a cons cell whose head candidate
succeeds. -/
theorem selectTraceAux_cons_some
    {impl : ExecutorImplementation Config MemoryArgs Attrs PostOps Ctx Executor ExecutorType OperationType}
    {rest : List (ExecutorImplementation Config MemoryArgs Attrs PostOps Ctx Executor ExecutorType OperationType)}
    {config : Config} {attrs : Attrs} {postOps : PostOps} {memory : MemoryArgs} {ctx : Ctx}
    {res : Executor × Config} {ops : List CapOp} {k : Nat}
    (hev : evalCandidate impl config attrs postOps memory ctx = (some res, ops)) :
    selectTraceAux config attrs postOps memory ctx (impl :: rest) k =
      (some res, ops.map fun op => ⟨op, k⟩) := by
  unfold selectTraceAux
  rw [hev]

/-- Unfolding the instrumented pass on a cons cell whose head candidate is
rejected. -/
theorem selectTraceAux_cons_none
    {impl : ExecutorImplementation Config MemoryArgs Attrs PostOps Ctx Executor ExecutorType OperationType}
    {rest : List (ExecutorImplementation Config MemoryArgs Attrs PostOps Ctx Executor ExecutorType OperationType)}
    {config : Config} {attrs : Attrs} {postOps : PostOps} {memory : MemoryArgs} {ctx : Ctx}
    {ops : List CapOp} {k : Nat}
    (hev : evalCandidate impl config attrs postOps memory ctx = (none, ops)) :
    selectTraceAux config attrs postOps memory ctx (impl :: rest) k =
      ((selectTraceAux config attrs postOps memory ctx rest (k + 1)).1,
        (ops.map fun op => ⟨op, k⟩) ++ (selectTraceAux config attrs postOps memory ctx rest (k + 1)).2) := by
  conv_lhs => unfold selectTraceAux
  rw [hev]

/-- Every capability call recorded by the pass starting at position `k`
over `impls` is on a descriptor position in the interval from `k` to
`k + impls.length` (exclusive). -/
theorem selectTraceAux_mem_idx
    (config : Config) (attrs : Attrs) (postOps : PostOps) (memory : MemoryArgs) (ctx : Ctx)
    (impls : List (ExecutorImplementation Config MemoryArgs Attrs PostOps Ctx Executor ExecutorType OperationType)) :
    ∀ (k : Nat), ∀ e ∈ (selectTraceAux config attrs postOps memory ctx impls k).2,
      k ≤ e.idx ∧ e.idx < k + impls.length := by
  induction impls with
  | nil =>
    intro k e he
    simp [selectTraceAux] at he
  | cons impl rest ih =>
    intro k e he
    cases hev : evalCandidate impl config attrs postOps memory ctx with
    | mk r ops =>
      cases r with
      | some res =>
        rw [selectTraceAux_cons_some hev] at he
        obtain ⟨op, hop, rfl⟩ := List.mem_map.mp he
        simp
      | none =>
        rw [selectTraceAux_cons_none hev] at he
        rcases List.mem_append.mp he with h1 | h2
        · obtain ⟨op, hop, rfl⟩ := List.mem_map.mp h1
          simp
        · have := ih (k + 1) e h2
          simp only [List.length_cons]
          omega

/-- The pass never records the same capability call on the same descriptor
position twice. -/
theorem selectTraceAux_trace_nodup
    (config : Config) (attrs : Attrs) (postOps : PostOps) (memory : MemoryArgs) (ctx : Ctx)
    (impls : List (ExecutorImplementation Config MemoryArgs Attrs PostOps Ctx Executor ExecutorType OperationType)) :
    ∀ (k : Nat), (selectTraceAux config attrs postOps memory ctx impls k).2.Nodup := by
  induction impls with
  | nil =>
    intro k
    simp [selectTraceAux]
  | cons impl rest ih =>
    intro k
    cases hev : evalCandidate impl config attrs postOps memory ctx with
    | mk r ops =>
      have hops : ops.Nodup := by
        have h0 := evalCandidate_snd_nodup impl config attrs postOps memory ctx
        rw [hev] at h0
        exact h0
      have hinj : Function.Injective (fun op => (⟨op, k⟩ : CallEvent)) := by
        intro a b hab
        injection hab
      have hmap : (ops.map fun op => (⟨op, k⟩ : CallEvent)).Nodup := hops.map hinj
      cases r with
      | some res =>
        rw [selectTraceAux_cons_some hev]
        exact hmap
      | none =>
        rw [selectTraceAux_cons_none hev]
        refine List.Nodup.append hmap (ih (k + 1)) ?dj
        intro e he1 he2
        obtain ⟨op, hop, rfl⟩ := List.mem_map.mp he1
        have := (selectTraceAux_mem_idx config attrs postOps memory ctx rest (k + 1) _ he2).1
        simp at this

/-- The pass makes at most one `supports` call per list element: the count
of `supports` calls it records is bounded by the list length. -/
theorem selectTraceAux_supports_count
    (config : Config) (attrs : Attrs) (postOps : PostOps) (memory : MemoryArgs) (ctx : Ctx)
    (impls : List (ExecutorImplementation Config MemoryArgs Attrs PostOps Ctx Executor ExecutorType OperationType)) :
    ∀ (k : Nat),
      ((selectTraceAux config attrs postOps memory ctx impls k).2.countP fun e =>
        e.op = CapOp.supports) ≤ impls.length := by
  induction impls with
  | nil =>
    intro k
    simp [selectTraceAux]
  | cons impl rest ih =>
    intro k
    have hcnt : ∀ (j : Nat), (((evalCandidate impl config attrs postOps memory ctx).2.map
        fun op => (⟨op, j⟩ : CallEvent)).countP fun e => e.op = CapOp.supports) = 1 := by
      intro j
      rcases evalCandidate_snd_cases impl config attrs postOps memory ctx with h | h | h | h <;>
        rw [h] <;> simp [List.countP_cons]
    cases hev : evalCandidate impl config attrs postOps memory ctx with
    | mk r ops =>
      have hcnt' : ((ops.map fun op => (⟨op, k⟩ : CallEvent)).countP fun e =>
          e.op = CapOp.supports) = 1 := by
        have := hcnt k
        rw [hev] at this
        exact this
      cases r with
      | some res =>
        rw [selectTraceAux_cons_some hev]
        simp only [List.length_cons]
        omega
      | none =>
        rw [selectTraceAux_cons_none hev]
        simp only [List.countP_append, List.length_cons]
        have := ih (k + 1)
        omega

/-- The pass yields no result exactly when every descriptor in the list is
structurally unsuccessful. -/
theorem selectTraceAux_fst_none_iff
    (config : Config) (attrs : Attrs) (postOps : PostOps) (memory : MemoryArgs) (ctx : Ctx)
    (impls : List (ExecutorImplementation Config MemoryArgs Attrs PostOps Ctx Executor ExecutorType OperationType)) :
    ∀ (k : Nat), (selectTraceAux config attrs postOps memory ctx impls k).1 = none ↔
      ∀ impl ∈ impls, candidateSucceeds impl config attrs postOps memory ctx = false := by
  induction impls with
  | nil =>
    intro k
    simp [selectTraceAux]
  | cons impl rest ih =>
    intro k
    have hiso := evalCandidate_fst_isSome impl config attrs postOps memory ctx
    cases hev : evalCandidate impl config attrs postOps memory ctx with
    | mk r ops =>
      rw [hev] at hiso
      cases r with
      | some res =>
        rw [selectTraceAux_cons_some hev]
        simp at hiso
        simp [List.forall_mem_cons, ← hiso]
      | none =>
        rw [selectTraceAux_cons_none hev]
        simp at hiso
        simp [List.forall_mem_cons, ← hiso, ih (k + 1)]

/-- If the descriptor at absolute position `k + i` of the list is
structurally successful, every capability call the pass starting at `k`
records is on a position at most `k + i`. -/
theorem selectTraceAux_short_circuit
    (config : Config) (attrs : Attrs) (postOps : PostOps) (memory : MemoryArgs) (ctx : Ctx)
    (impls : List (ExecutorImplementation Config MemoryArgs Attrs PostOps Ctx Executor ExecutorType OperationType)) :
    ∀ (k i : Nat) (h : i < impls.length),
      candidateSucceeds (impls.get ⟨i, h⟩) config attrs postOps memory ctx = true →
      ∀ e ∈ (selectTraceAux config attrs postOps memory ctx impls k).2, e.idx ≤ k + i := by
  induction impls with
  | nil =>
    intro k i h
    simp at h
  | cons impl rest ih =>
    intro k i h hsucc e he
    cases hev : evalCandidate impl config attrs postOps memory ctx with
    | mk r ops =>
      cases r with
      | some res =>
        rw [selectTraceAux_cons_some hev] at he
        obtain ⟨op, hop, rfl⟩ := List.mem_map.mp he
        simp
      | none =>
        rw [selectTraceAux_cons_none hev] at he
        rcases List.mem_append.mp he with h1 | h2
        · obtain ⟨op, hop, rfl⟩ := List.mem_map.mp h1
          simp
        · cases i with
          | zero =>
            exfalso
            have hiso := evalCandidate_fst_isSome impl config attrs postOps memory ctx
            rw [hev] at hiso
            simp at hiso
            have hget : (impl :: rest).get ⟨0, h⟩ = impl := rfl
            rw [hget] at hsucc
            rw [hsucc] at hiso
            exact Bool.noConfusion hiso
          | succ j =>
            have hj : j < rest.length := Nat.lt_of_succ_lt_succ (by simpa using h)
            have hget : (impl :: rest).get ⟨j + 1, h⟩ = rest.get ⟨j, hj⟩ := rfl
            rw [hget] at hsucc
            have := ih (k + 1) j hj hsucc e h2
            omega

/-- Claim C7: if the descriptor at position `i` of the priority-ordered
list supports the Config, accepts the shapes and constructs successfully,
then every capability call the selection pass makes is on a descriptor at
position at most `i` — no descriptor after `i` is ever invoked. -/
theorem selection_short_circuit
    (impls : List (ExecutorImplementation Config MemoryArgs Attrs PostOps Ctx Executor ExecutorType OperationType))
    (config : Config) (attrs : Attrs) (postOps : PostOps) (memory : MemoryArgs) (ctx : Ctx)
    (i : Nat) (h : i < impls.length)
    (hsucc : candidateSucceeds (impls.get ⟨i, h⟩) config attrs postOps memory ctx = true) :
    ((selectTrace impls config attrs postOps memory ctx).2.all fun e =>
      decide (e.idx ≤ i)) = true := by
  rw [List.all_eq_true]
  intro e he
  simp only [selectTrace] at he
  have := selectTraceAux_short_circuit config attrs postOps memory ctx impls 0 i h hsucc e he
  simpa using this

/-- Claim C7, witnessed on a concrete two-descriptor registry whose second
descriptor succeeds. -/
theorem selection_short_circuit_witness :
    ((selectTrace [demoReject, demoAccept] 0 0 0 0 0).2.all fun e =>
      decide (e.idx ≤ 1)) = true :=
  selection_short_circuit [demoReject, demoAccept] 0 0 0 0 0 1 (by decide) (by decide)

/-- Claim C8: in one selection pass over a list of length `N`, no
capability operation is repeated on the same descriptor (in particular
`requiresFallback` is queried at most once per candidate and no descriptor
is revisited), every call is on one of the `N` list positions, and at most
`N` descriptors are evaluated (at most `N` `supports` calls). -/
theorem selection_bounded
    (impls : List (ExecutorImplementation Config MemoryArgs Attrs PostOps Ctx Executor ExecutorType OperationType))
    (config : Config) (attrs : Attrs) (postOps : PostOps) (memory : MemoryArgs) (ctx : Ctx) :
    (selectTrace impls config attrs postOps memory ctx).2.Nodup ∧
      ((selectTrace impls config attrs postOps memory ctx).2.all fun e =>
        decide (e.idx < impls.length)) = true ∧
      ((selectTrace impls config attrs postOps memory ctx).2.countP fun e =>
        e.op = CapOp.supports) ≤ impls.length := by
  refine ⟨?nd, ?ub, ?cnt⟩
  · exact selectTraceAux_trace_nodup config attrs postOps memory ctx impls 0
  · rw [List.all_eq_true]
    intro e he
    simp only [selectTrace] at he
    have := (selectTraceAux_mem_idx config attrs postOps memory ctx impls 0 e he).2
    simpa using this
  · exact selectTraceAux_supports_count config attrs postOps memory ctx impls 0

/-- Claim C9: selection yields no Executor exactly when every descriptor in
the list is rejected on support, shape, or creation — the empty list
included — and the failure is the `none` result, never a defaulted
Executor. -/
theorem selection_exhaustion
    (impls : List (ExecutorImplementation Config MemoryArgs Attrs PostOps Ctx Executor ExecutorType OperationType))
    (config : Config) (attrs : Attrs) (postOps : PostOps) (memory : MemoryArgs) (ctx : Ctx) :
    select impls config attrs postOps memory ctx = none ↔
      ∀ impl ∈ impls, candidateSucceeds impl config attrs postOps memory ctx = false :=
  selectTraceAux_fst_none_iff config attrs postOps memory ctx impls 0

/-- Claim C9, witnessed on the empty registry and on a registry whose only
descriptor rejects every Config. -/
theorem selection_exhaustion_witness :
    select ([] : List (ExecutorImplementation Nat Nat Nat Nat Nat Nat Nat Nat)) 0 0 0 0 0 = none ∧
      select [demoReject] 0 0 0 0 0 = none :=
  ⟨(selection_exhaustion [] 0 0 0 0 0).mpr (by simp),
    (selection_exhaustion [demoReject] 0 0 0 0 0).mpr (by decide)⟩

end OpenVinoCpu

